import Mathlib

/-!
Shallow embedding of the sora2-vercel client application.

The embedded code comes from:
* the remote API client (`services/apiService.ts`): `handleFetchError`,
  `dataURLtoBlob`, `optimizePrompt`, `createVideoTask`, `queryVideoTask`;
* the storyboard reconciler in `components/CreatePanel.tsx`:
  `addSegment`, `removeSegment`, `updateSegment`, the duration-clamp
  effect and `handlePreviewAndOptimize`;
* the polling reconciliation loop in `components/GalleryPanel` and the
  task store update `handleUpdateTask` in `App.tsx`.

JavaScript values are modelled as follows: numbers that are integers in
the program become `Int` or `Nat`; optional / possibly-`undefined`
fields become `Option`; JavaScript truthiness of strings and numbers
(`""` and `0` are falsy) is made explicit through the `jsOr*` helpers;
code that throws returns `Except`.  External effects (HTTP fetch,
`JSON.parse` of a response body, `atob`, `Date.now()`, random id
generation) are passed in as explicit parameters or abstracted outcome
values, so every definition is executable.
-/

set_option maxRecDepth 8000

namespace Sora2

/-- A JavaScript error value, reduced to its `name` and `message` fields
(`new Error(m)` has name `"Error"`). -/
structure JsError where
  name : String
  message : String
deriving Repr, DecidableEq

/-- `new Error(m)`. -/
def mkError (m : String) : JsError := ⟨"Error", m⟩

/-- Outcome of `JSON.parse` on a response body as classified by the
if-chain in `handleFetchError` (fields are tested for JS truthiness, so
the carried message of `jsonErrorMessage`/`jsonMessage` is the first
truthy one found): either parsing throws (`notJson`), or it yields an
object with a truthy `error.message`, else a truthy `message`, else
neither. -/
inductive BodyParse where
  | notJson
  | jsonErrorMessage (msg : String)
  | jsonMessage (msg : String)
  | jsonOther
deriving Repr, DecidableEq

/-- An HTTP `Response` as observed by `handleFetchError`: `ok`, `status`,
the body text (`await response.text()`), and the result of `JSON.parse`
on that text. -/
structure HttpResponse where
  ok : Bool
  status : Nat
  bodyText : String
  bodyParse : BodyParse
deriving Repr, DecidableEq

/-- The connectivity/CORS hint thrown for a network-level fetch failure. -/
def corsHintMessage : String :=
  "网络请求失败：请检查网络连接、API地址配置或跨域设置(CORS)"

/-- The configuration hint thrown for an HTTP 404 response. -/
def notFoundMessage : String :=
  "API 路径错误 (404): 请检查 API 地址配置。"

/-- Lines 31–44 of `handleFetchError`: the message for a non-ok response
with status other than 404.  Start from `Request failed: {status}`, try
`errorJson.error?.message`, then `errorJson.message`, otherwise append a
100-character excerpt of the body (for a non-JSON body, only when the
body text is truthy, i.e. non-empty). -/
def httpErrorMessage (r : HttpResponse) : String :=
  let base := "Request failed: " ++ toString r.status
  match r.bodyParse with
  | .jsonErrorMessage m => m
  | .jsonMessage m => m
  | .jsonOther => base ++ " - " ++ r.bodyText.take 100
  | .notJson => if r.bodyText ≠ "" then base ++ " - " ++ r.bodyText.take 100 else base

/-- `error?.name === 'TypeError' && error?.message === 'Failed to fetch'`. -/
def isFailedToFetch : Option JsError → Bool
  | some e => e.name == "TypeError" && e.message == "Failed to fetch"
  | none => false

/-- The tail of `handleFetchError`: `if (error) throw error;` then
`throw new Error('Unknown Error Occurred')`.  An `Error` object is
always truthy, so `some e` rethrows `e`. -/
def handleFetchThrow : Option JsError → JsError
  | some e => e
  | none => mkError "Unknown Error Occurred"

/-- `handleFetchError(error, response)` from `apiService`.  The source
function always throws; the embedding returns the thrown error value. -/
def handleFetchError (error : Option JsError) (response : Option HttpResponse) : JsError :=
  if isFailedToFetch error then
    mkError corsHintMessage
  else
    match response with
    | some r =>
      if !r.ok then
        if r.status == 404 then mkError notFoundMessage
        else mkError (httpErrorMessage r)
      else handleFetchThrow error
    | none => handleFetchThrow error

/-- JS `a || b` on an optional string (`""`, `null` and `undefined` are
falsy). -/
def jsOrStr (a : Option String) (b : String) : String :=
  match a with
  | some s => if s ≠ "" then s else b
  | none => b

/-- JS `a || b` where both sides are optional strings. -/
def jsOrOpt (a b : Option String) : Option String :=
  match a with
  | some s => if s ≠ "" then some s else b
  | none => b

/-- JS `a || undefined` on an optional string: an empty string collapses
to `undefined`. -/
def jsTruthyStrOpt : Option String → Option String
  | some s => if s ≠ "" then some s else none
  | none => none

/-- JS `a || b` on an optional number (`0`, `null` and `undefined` are
falsy). -/
def jsOrNat (a : Option Nat) (b : Nat) : Nat :=
  match a with
  | some n => if n ≠ 0 then n else b
  | none => b

/-- JS `!a` on an optional number: truthy exactly when present and
non-zero. -/
def jsFalsyNat : Option Nat → Bool
  | some n => n == 0
  | none => true

/-- The `mode` argument of `optimizePrompt`. -/
inductive PromptMode where
  | text
  | segments
  | script
deriving Repr, DecidableEq

/-- The mode-specific system instruction template selected by
`optimizePrompt` (lines 81–89 of `apiService`). -/
def optimizeSystemContent : PromptMode → String
  | .script =>
    "You are an expert film director. Refine the following video storyboard script. You MUST preserve the timestamp format `[start-end]` exactly as is (e.g. `[0s-5s]`) at the beginning of each scene. Improve the scene descriptions to be visually stunning, cinematic, and detailed, ensuring narrative continuity. Output ONLY the fully optimized script text. Do not add conversational filler."
  | .segments =>
    "Analyze the following sequence of video storyboard scenes (separated by '|||') as a cohesive narrative. Optimize EACH scene's description to be visually stunning, cinematic, and detailed. Ensure logical continuity and consistent artistic style across the sequence. Return exactly the same number of segments, separated by '|||'. Output ONLY the optimized descriptions."
  | .text =>
    "You are an expert film director and prompt engineer. Reword the user's video description into a highly detailed, visual, and cinematic prompt suitable for AI video generation (like Sora). Focus on lighting, camera angles, texture, and motion. Output ONLY the optimized prompt, no conversational filler. Do NOT include video duration, length, aspect ratio, resolution, or technical camera settings (like 4k, 16:9) in the generated text."

/-- The outcome of the chat-completion fetch inside `optimizePrompt`,
seen from the calling code: the request succeeded with
`data.choices?.[0]?.message?.content` (possibly absent), or the response
arrived non-ok, or fetch / `response.json()` threw. -/
inductive FetchOutcome where
  | success (content : Option String)
  | httpError (r : HttpResponse)
  | thrown (e : JsError)
deriving Repr, DecidableEq

/-- `optimizePrompt(prompt, settings, mode)` from `apiService`.  On a
non-ok response the source runs `await handleFetchError(null, response)`
(which throws the translated error), lands in the `catch`, and there
`await handleFetchError(error)` rethrows that same error, so the
`return prompt; // Fallback` line is never reached; the embedding makes
the resulting thrown error explicit as `Except.error`. -/
def optimizePrompt (prompt : String) (mode : PromptMode) (outcome : FetchOutcome) :
    Except JsError String :=
  if prompt = "" then Except.ok ""
  else
    let _systemContent := optimizeSystemContent mode
    match outcome with
    | .success content => Except.ok (jsOrStr content prompt)
    | .httpError r =>
      Except.error (handleFetchError (some (handleFetchError none (some r))) none)
    | .thrown e => Except.error (handleFetchError (some e) none)

/-- The client-visible lifecycle status of a task (`types.ts`). -/
inductive TaskStatus where
  | pending
  | processing
  | completed
  | failed
deriving Repr, DecidableEq

/-- `completed` or `failed`: no further polling occurs once reached. -/
def TaskStatus.isTerminal : TaskStatus → Bool
  | .completed => true
  | .failed => true
  | _ => false

/-- A locally stored `VideoTask` record (`types.ts`). -/
structure VideoTask where
  id : String
  status : TaskStatus
  prompt : String
  createdAt : Nat
  completedAt : Option Nat
  videoUrl : Option String
  thumbnailUrl : Option String
  progress : Option Nat
  failureReason : Option String
deriving Repr, DecidableEq

/-- The nested `detail` object of a status query response (`types.ts`). -/
structure QueryDetail where
  status : Option String
  failure_reason : Option String
  progress_pct : Option Nat
  video_url : Option String
  thumbnail_url : Option String
deriving Repr, DecidableEq

/-- A status query response; optional fields may be absent at runtime,
which is why the polling code reads them with `||` / `?.`. -/
structure QueryVideoResponse where
  id : String
  status : Option String
  video_url : Option String
  status_update_time : Option Nat
  detail : Option QueryDetail
deriving Repr, DecidableEq

/-- `res.status || res.detail?.status` (GalleryPanel polling loop). -/
def resolvedStatus (res : QueryVideoResponse) : Option String :=
  jsOrOpt res.status (res.detail.bind (·.status))

/-- `res.detail?.failure_reason`. -/
def resFailureReason (res : QueryVideoResponse) : Option String :=
  res.detail.bind (·.failure_reason)

/-- `res.detail?.progress_pct`. -/
def resProgress (res : QueryVideoResponse) : Option Nat :=
  res.detail.bind (·.progress_pct)

/-- `res.video_url || res.detail?.video_url`. -/
def resVideoUrl (res : QueryVideoResponse) : Option String :=
  jsOrOpt res.video_url (res.detail.bind (·.video_url))

/-- `res.detail?.thumbnail_url`. -/
def resThumbnailUrl (res : QueryVideoResponse) : Option String :=
  res.detail.bind (·.thumbnail_url)

/-- The `updatedStatus` if-chain of the polling loop: the task's status
is replaced on `completed`/`failed`/`processing`, otherwise kept. -/
def mergedStatus (task : VideoTask) (res : QueryVideoResponse) : TaskStatus :=
  if resolvedStatus res = some "completed" then .completed
  else if resolvedStatus res = some "failed" then .failed
  else if resolvedStatus res = some "processing" then .processing
  else task.status

/-- The guard in the polling loop before `onUpdateTask` is called:
`updatedStatus !== task.status || resVideoUrl !== task.videoUrl ||
resProgress !== task.progress`. -/
def mergeGuard (task : VideoTask) (res : QueryVideoResponse) : Prop :=
  mergedStatus task res ≠ task.status
  ∨ resVideoUrl res ≠ task.videoUrl
  ∨ resProgress res ≠ task.progress

instance (task : VideoTask) (res : QueryVideoResponse) : Decidable (mergeGuard task res) := by
  unfold mergeGuard; infer_instance

/-- The record passed to `onUpdateTask` when the guard fires:
`completedAt` is stamped from `res.status_update_time || Date.now()`
exactly when the merged status is terminal and `!task.completedAt`
(`now` stands for `Date.now()`). -/
def mergedRecord (task : VideoTask) (res : QueryVideoResponse) (now : Nat) : VideoTask :=
  { task with
    status := mergedStatus task res
    videoUrl := jsTruthyStrOpt (resVideoUrl res)
    thumbnailUrl := jsTruthyStrOpt (resThumbnailUrl res)
    progress := resProgress res
    failureReason := resFailureReason res
    completedAt :=
      if (mergedStatus task res = .completed ∨ mergedStatus task res = .failed)
          ∧ jsFalsyNat task.completedAt = true
      then some (jsOrNat res.status_update_time now)
      else task.completedAt }

/-- The net effect of one poll of one task on that task's stored record:
the guard decides whether `onUpdateTask` replaces the record. -/
def mergeTask (task : VideoTask) (res : QueryVideoResponse) (now : Nat) : VideoTask :=
  if mergeGuard task res then mergedRecord task res now else task

/-- A whole sequence of polling-tick merges applied to one task's
record, each with its response and its `Date.now()` reading. -/
def mergeRuns (task : VideoTask) : List (QueryVideoResponse × Nat) → VideoTask
  | [] => task
  | p :: ps => mergeRuns (mergeTask task p.1 p.2) ps

/-- `t.status === 'pending' || t.status === 'processing'`: the filter of
the polling effect in `GalleryPanel`. -/
def isPollable (t : VideoTask) : Bool :=
  t.status == TaskStatus.pending || t.status == TaskStatus.processing

/-- `tasks.filter(t => t.status === 'pending' || t.status === 'processing')`. -/
def pendingTasks (tasks : List VideoTask) : List VideoTask :=
  tasks.filter isPollable

/-- The set of tasks for which the interval callback issues a status
query at a given tick.  The source callback has no attempt counter or
timeout: the tick index does not occur in it, so the queried set depends
on the task list alone. -/
def tasksQueriedAtTick (tasks : List VideoTask) (_tick : Nat) : List VideoTask :=
  pendingTasks tasks

/-- `s.includes(sub)`: substring test. -/
def strContains (s sub : String) : Bool :=
  (List.range (s.length + 1)).any fun i => sub.isPrefixOf (s.drop i)

/-- The console lines produced when a status query throws: inside
`queryVideoTask`, `Error querying video task:` unless the message
mentions `NetworkError` (silent fail for polling interruptions), then in
the polling loop's `catch`, `Failed to poll task {id}`. -/
def queryErrorLog (e : JsError) (taskId : String) : List String :=
  (if strContains e.message "NetworkError" then [] else ["Error querying video task:"])
  ++ ["Failed to poll task " ++ taskId]

/-- `handleUpdateTask` in `App.tsx`:
`prev.map(t => t.id === updatedTask.id ? updatedTask : t)`. -/
def updateTaskInList (tasks : List VideoTask) (updatedTask : VideoTask) : List VideoTask :=
  tasks.map fun t => if t.id = updatedTask.id then updatedTask else t

/-- The ambient effects of one polling tick: per task id, the outcome of
`queryVideoTask` (a normalized response or a thrown error), and the
`Date.now()` reading. -/
structure PollEnv where
  outcome : String → Except JsError QueryVideoResponse
  now : Nat

/-- One iteration of the `for (const task of pendingTasks)` loop, acting
on the task store and the accumulated console log: a successful query
calls `onUpdateTask` with the merged record when the guard fires; a
thrown query only logs (`try`/`catch` keeps the loop going). -/
def pollStep (env : PollEnv) (acc : List VideoTask × List String) (task : VideoTask) :
    List VideoTask × List String :=
  match env.outcome task.id with
  | Except.ok res =>
    if mergeGuard task res then
      (updateTaskInList acc.1 (mergedRecord task res env.now), acc.2)
    else acc
  | Except.error e => (acc.1, acc.2 ++ queryErrorLog e task.id)

/-- One full polling tick over the current task list: the sequential
loop over `pendingTasks`, returning the resulting task store and the
console log of the tick. -/
def pollTick (env : PollEnv) (tasks : List VideoTask) : List VideoTask × List String :=
  (pendingTasks tasks).foldl (pollStep env) (tasks, [])

/-- The console lines of one task's poll within a tick. -/
def taskPollLog (env : PollEnv) (task : VideoTask) : List String :=
  match env.outcome task.id with
  | Except.ok _ => []
  | Except.error e => queryErrorLog e task.id

/-- The stored record with a given id. -/
def lookupTask (tasks : List VideoTask) (taskId : String) : Option VideoTask :=
  tasks.find? fun t => t.id == taskId

/-- A sample tick environment: the query for task `a` throws, the query
for any other task returns a completed response. -/
def sampleEnv : PollEnv :=
  ⟨fun i => if i = "a" then Except.error ⟨"Error", "boom"⟩
            else Except.ok ⟨"b", some "completed", some "https://x/y.mp4", some 7, none⟩, 9⟩

/-- A sample pending task. -/
def sampleTaskA : VideoTask := ⟨"a", TaskStatus.pending, "p", 1, none, none, none, none, none⟩

/-- A sample processing task. -/
def sampleTaskB : VideoTask := ⟨"b", TaskStatus.processing, "q", 2, none, none, none, none, none⟩

/-- JS `String.prototype.trim()`: strip leading and trailing
whitespace (structurally, so that it evaluates in the kernel). -/
def jsTrim (s : String) : String :=
  String.mk ((s.data.dropWhile Char.isWhitespace).reverse.dropWhile Char.isWhitespace).reverse

/-- A storyboard segment (`CreatePanel.tsx`).  Durations are integers in
seconds; the duration arithmetic of the panel is over JS numbers, so the
embedding uses `Int`. -/
structure StoryboardSegment where
  id : String
  duration : Int
  description : String
deriving Repr, DecidableEq

/-- `storyboardSegments.reduce((sum, seg) => sum + (Number(seg.duration) || 0), 0)`
(`Number(d) || 0` only replaces `NaN` by `0`, which has no counterpart
on `Int`). -/
def totalSegmentDuration (segs : List StoryboardSegment) : Int :=
  segs.foldl (fun sum seg => sum + seg.duration) 0

/-- `addSegment` from `CreatePanel`: rejected with an error once the
running total has reached the target `duration`; otherwise appends a
segment of duration `min 5 (max 1 (duration - total))` under a freshly
generated id (`Math.random().toString(36).substring(2, 9)`), passed in
as `newId`. -/
def addSegment (duration : Int) (newId : String) (segs : List StoryboardSegment) :
    List StoryboardSegment × Option String :=
  if totalSegmentDuration segs ≥ duration then
    (segs, some "分镜总时长已达到视频总时长，无法添加更多分镜")
  else
    let remaining := max 1 (duration - totalSegmentDuration segs)
    let nextDuration := min 5 remaining
    (segs ++ [⟨newId, nextDuration, ""⟩], none)

/-- `removeSegment` from `CreatePanel`: only filters when more than one
segment remains. -/
def removeSegment (id : String) (segs : List StoryboardSegment) : List StoryboardSegment :=
  if segs.length > 1 then segs.filter (fun s => s.id != id) else segs

/-- The `field === 'duration'` branch of `updateSegment`: the parsed
input value (`Math.max(0, parseInt(value) || 0)`, here `max 0 value`) is
clamped to `duration - otherSegmentsTotal`. -/
def updateSegmentDuration (duration : Int) (id : String) (value : Int)
    (segs : List StoryboardSegment) : List StoryboardSegment :=
  let numVal := max 0 value
  let otherSegmentsTotal :=
    (segs.filter fun s => s.id != id).foldl (fun sum s => sum + s.duration) 0
  let maxAllowed := duration - otherSegmentsTotal
  let finalVal := min numVal maxAllowed
  segs.map fun s => if s.id = id then { s with duration := finalVal } else s

/-- The non-duration branch of `updateSegment`, at the `description`
field used by the panel. -/
def updateSegmentDescription (id : String) (value : String)
    (segs : List StoryboardSegment) : List StoryboardSegment :=
  segs.map fun s => if s.id = id then { s with description := value } else s

/-- The loop body of the duration-clamp effect in `CreatePanel` (lines
111–131): replay segments in order, `break` once the accumulated time
has reached the new duration, trim a segment that would overshoot, and
keep only positive-duration segments. -/
def clampSegmentsLoop (duration : Int) : Int → List StoryboardSegment → List StoryboardSegment
  | _, [] => []
  | accumulatedTime, seg :: rest =>
    if accumulatedTime ≥ duration then []
    else
      let segDuration :=
        if accumulatedTime + seg.duration > duration then duration - accumulatedTime
        else seg.duration
      if segDuration > 0 then
        { seg with duration := segDuration }
          :: clampSegmentsLoop duration (accumulatedTime + segDuration) rest
      else clampSegmentsLoop duration accumulatedTime rest

/-- The duration-clamp effect: run the replay loop and, if it produced
no segments, synthesize one spanning the full new duration (its id is
`Date.now().toString()`, passed in as `fallbackId`). -/
def clampSegments (duration : Int) (fallbackId : String)
    (segs : List StoryboardSegment) : List StoryboardSegment :=
  let newSegments := clampSegmentsLoop duration 0 segs
  if newSegments = [] then [⟨fallbackId, duration, ""⟩] else newSegments

/-- The `scriptParts` map of `handlePreviewAndOptimize`, with its
running `currentTime`. -/
def previewParts : Int → List StoryboardSegment → List String
  | _, [] => []
  | currentTime, seg :: rest =>
    ("[" ++ toString currentTime ++ "s-" ++ toString (currentTime + seg.duration) ++ "s] "
      ++ seg.description) :: previewParts (currentTime + seg.duration) rest

/-- `handlePreviewAndOptimize` from `CreatePanel`: an error (view stays
in edit) when the duration sum misses the target or some description is
blank after trimming, otherwise the preview script, the parts joined by
a blank line. -/
def handlePreviewAndOptimize (duration : Int) (segs : List StoryboardSegment) :
    Except String String :=
  if totalSegmentDuration segs ≠ duration then
    Except.error ("分镜总时长 (" ++ toString (totalSegmentDuration segs)
      ++ "s) 必须等于视频总时长 (" ++ toString duration ++ "s)")
  else if segs.any fun s => jsTrim s.description == "" then
    Except.error "请完善所有分镜的场景描述"
  else
    Except.ok (String.intercalate "\n\n" (previewParts 0 segs))

/-- Cumulative duration of the first `i` segments. -/
def prefixDuration (segs : List StoryboardSegment) (i : Nat) : Int :=
  totalSegmentDuration (segs.take i)

/-- The preview parts as the specification words them: the `i`-th part
carries the cumulative boundaries `[sum of first i, sum of first i+1]`. -/
def specScriptParts (segs : List StoryboardSegment) : List String :=
  (List.range segs.length).map fun i =>
    "[" ++ toString (prefixDuration segs i) ++ "s-" ++ toString (prefixDuration segs (i + 1))
      ++ "s] " ++ (segs.getD i ⟨"", 0, ""⟩).description

/-- The storyboard-relevant part of the panel state: the selected target
duration and the segment list. -/
structure PanelState where
  duration : Int
  storyboardSegments : List StoryboardSegment
deriving Repr, DecidableEq

/-- A user action on the storyboard: a duration edit, a description
edit, an add, a remove, or an external target-duration change (which
fires the clamp effect). -/
inductive PanelAction where
  | editDuration (id : String) (value : Int)
  | editDescription (id : String) (value : String)
  | addSeg (newId : String)
  | removeSeg (id : String)
  | setDuration (newDuration : Int) (fallbackId : String)
deriving Repr, DecidableEq

/-- One action applied to the panel state. -/
def applyAction (st : PanelState) : PanelAction → PanelState
  | .editDuration id v =>
    { st with storyboardSegments := updateSegmentDuration st.duration id v st.storyboardSegments }
  | .editDescription id v =>
    { st with storyboardSegments := updateSegmentDescription id v st.storyboardSegments }
  | .addSeg newId =>
    { st with storyboardSegments := (addSegment st.duration newId st.storyboardSegments).1 }
  | .removeSeg id =>
    { st with storyboardSegments := removeSegment id st.storyboardSegments }
  | .setDuration d fid =>
    { duration := d, storyboardSegments := clampSegments d fid st.storyboardSegments }

/-- A sequence of actions applied in order. -/
def applyActions : PanelState → List PanelAction → PanelState
  | st, [] => st
  | st, a :: rest => applyActions (applyAction st a) rest

/-- Whether one action's generated id (if any) is fresh for the current
state. -/
def actionGuard (st : PanelState) : PanelAction → Bool
  | .addSeg newId => !((st.storyboardSegments.map (·.id)).contains newId)
  | _ => true

/-- The generated ids of added segments are fresh along the run — the
source draws them from `Math.random()`, so this is the no-collision
assumption on id generation. -/
def freshActions : PanelState → List PanelAction → Bool
  | _, [] => true
  | st, a :: rest => actionGuard st a && freshActions (applyAction st a) rest

/-- The actions claim C3 quantifies over: duration edits, description
edits and additions. -/
def isEditOrAdd : PanelAction → Bool
  | .editDuration _ _ => true
  | .editDescription _ _ => true
  | .addSeg _ => true
  | _ => false

/-- The initial storyboard state: target duration 10 (the `useState`
default) and the single seeded segment `{id: '1', duration: 5}`. -/
def initialPanelState : PanelState := ⟨10, [⟨"1", 5, ""⟩]⟩

/-- JS `s.startsWith(pre)`, structurally over the characters. -/
def jsStartsWith (s pre : String) : Bool :=
  pre.data.isPrefixOf s.data

/-- Split a character list at every comma, keeping empty groups. -/
def splitCommaAux : List Char → List (List Char)
  | [] => [[]]
  | c :: rest =>
    if c = ',' then [] :: splitCommaAux rest
    else
      match splitCommaAux rest with
      | [] => [[c]]
      | g :: gs => (c :: g) :: gs

/-- JS `dataurl.split(',')`. -/
def jsSplitComma (s : String) : List String :=
  (splitCommaAux s.data).map String.mk

/-- Characters up to (excluding) the next semicolon, or `none` when no
semicolon follows. -/
def takeUntilSemicolon : List Char → Option (List Char)
  | [] => none
  | c :: rest => if c = ';' then some [] else (takeUntilSemicolon rest).map (c :: ·)

/-- The capture of the regex `:(.*?);`: the characters between the first
colon that has a later semicolon and that semicolon. -/
def firstColonCapture : List Char → Option (List Char)
  | [] => none
  | c :: rest =>
    if c = ':' then
      match takeUntilSemicolon rest with
      | some cap => some cap
      | none => firstColonCapture rest
    else firstColonCapture rest

/-- `arr[0].match(/:(.*?);/)`, returning the captured group. -/
def matchMimeCapture (s : String) : Option String :=
  (firstColonCapture s.data).map String.mk

/-- A JS `Blob`: its MIME type and its bytes (the `Uint8Array` filled
with `bstr.charCodeAt(n)` for each index). -/
structure Blob where
  mime : String
  data : List Nat
deriving Repr, DecidableEq

/-- `dataURLtoBlob` from `apiService`: split at the commas, read the
MIME type from the part before the first comma (defaulting to
`application/octet-stream`), `atob`-decode the part after it, and build
the blob; any throw inside (in particular from `atob`, here modelled as
an explicit partial decoding function, applied to the string
`"undefined"` when the data URL has no comma, as JS coerces `arr[1]`)
is caught and turned into `null`. -/
def dataURLtoBlob (atob : String → Option (List Nat)) (dataurl : String) : Option Blob :=
  let arr := jsSplitComma dataurl
  let mime := (matchMimeCapture (arr.headD "")).getD "application/octet-stream"
  match atob (arr.getD 1 "undefined") with
  | some codes => some ⟨mime, codes⟩
  | none => none

/-- Video orientation (`types.ts`). -/
inductive VideoOrientation where
  | portrait
  | landscape
deriving Repr, DecidableEq

/-- A `CreateVideoRequest` (`types.ts`). -/
structure CreateVideoRequest where
  model : String
  prompt : String
  images : List String
  orientation : VideoOrientation
  duration : Int
  size : String
  character_url : Option String
  character_timestamps : Option String
deriving Repr, DecidableEq

/-- A `CreateVideoResponse`, reduced to the fields the client reads. -/
structure CreateVideoResponse where
  id : String
  status : String
deriving Repr, DecidableEq

/-- One value appended to the multipart `FormData`. -/
inductive FormValue where
  | str (value : String)
  | blob (b : Blob) (filename : String)
deriving Repr, DecidableEq

/-- The unconditional `formData.append` calls of `createVideoTask`:
model, prompt, seconds, the size code derived from the orientation, and
the watermark flag. -/
def baseVideoFields (request : CreateVideoRequest) : List (String × FormValue) :=
  [("model", FormValue.str request.model),
   ("prompt", FormValue.str request.prompt),
   ("seconds", FormValue.str (toString request.duration)),
   ("size", FormValue.str
     (if request.orientation = VideoOrientation.landscape then "16x9" else "9x16")),
   ("watermark", FormValue.str "false")]

/-- The image-handling block of `createVideoTask`: the first image, when
present, is attached as `input_reference` — decoded from a data URL
(silently skipped when decoding fails), or verbatim otherwise. -/
def imageField (atob : String → Option (List Nat)) (images : List String) :
    List (String × FormValue) :=
  match images with
  | [] => []
  | image :: _ =>
    if jsStartsWith image "data:" then
      match dataURLtoBlob atob image with
      | some b => [("input_reference", FormValue.blob b "input_image.png")]
      | none => []
    else [("input_reference", FormValue.str image)]

/-- The optional character fields of `createVideoTask` (appended when
truthy). -/
def characterFields (request : CreateVideoRequest) : List (String × FormValue) :=
  (match request.character_url with
   | some u => if u ≠ "" then [("character_url", FormValue.str u)] else []
   | none => [])
  ++ (match request.character_timestamps with
      | some t => if t ≠ "" then [("character_timestamps", FormValue.str t)] else []
      | none => [])

/-- The complete multipart form built by `createVideoTask`. -/
def createVideoFormData (atob : String → Option (List Nat))
    (request : CreateVideoRequest) : List (String × FormValue) :=
  baseVideoFields request ++ imageField atob request.images ++ characterFields request

/-- The outcome of the job-creation fetch, seen from the calling code. -/
inductive VideoFetchOutcome where
  | success (res : CreateVideoResponse)
  | httpError (r : HttpResponse)
  | thrown (e : JsError)
deriving Repr, DecidableEq

/-- `createVideoTask(request, settings)`: the pair of the submitted
multipart form and the call's result (so that theorems can speak about
what was submitted).  As in `optimizePrompt`, a failure is rethrown by
`handleFetchError` in the `catch` (the trailing `throw error` is
unreachable). -/
def createVideoTask (atob : String → Option (List Nat)) (request : CreateVideoRequest)
    (outcome : VideoFetchOutcome) :
    List (String × FormValue) × Except JsError CreateVideoResponse :=
  (createVideoFormData atob request,
   match outcome with
   | .success res => Except.ok res
   | .httpError r =>
     Except.error (handleFetchError (some (handleFetchError none (some r))) none)
   | .thrown e => Except.error (handleFetchError (some e) none))

end Sora2

namespace Sora2

/-- C8: every non-success HTTP response is translated by status: 404
yields the configuration hint; another status yields `error.message`,
else `message`, else a message containing the numeric status code, and
when the body is not parseable JSON also its 100-character excerpt; a
network-level `TypeError: Failed to fetch` yields the distinct
connectivity/CORS hint. -/
theorem handleFetchError_policy (r : HttpResponse) (hok : r.ok = false) :
    (r.status = 404 → handleFetchError none (some r) = mkError notFoundMessage)
    ∧ (r.status ≠ 404 →
        (∀ m, r.bodyParse = BodyParse.jsonErrorMessage m →
          (handleFetchError none (some r)).message = m)
        ∧ (∀ m, r.bodyParse = BodyParse.jsonMessage m →
          (handleFetchError none (some r)).message = m)
        ∧ ((r.bodyParse = BodyParse.jsonOther ∨ r.bodyParse = BodyParse.notJson) →
          (∃ a b, (handleFetchError none (some r)).message = a ++ toString r.status ++ b)
          ∧ (r.bodyParse = BodyParse.notJson →
              ∃ a b, (handleFetchError none (some r)).message = a ++ r.bodyText.take 100 ++ b)))
    ∧ handleFetchError (some ⟨"TypeError", "Failed to fetch"⟩) none = mkError corsHintMessage
    ∧ corsHintMessage ≠ notFoundMessage := by
  have hff : isFailedToFetch (none : Option JsError) = false := rfl
  refine ⟨?_, ?_, ?_, ?_⟩
  · intro h404
    simp [handleFetchError, hff, hok, h404]
  · intro hne
    have h404b : (r.status == 404) = false := by
      simp [Nat.beq_eq_true_eq]
      omega
    refine ⟨?_, ?_, ?_⟩
    · intro m hm
      simp [handleFetchError, hff, hok, h404b, httpErrorMessage, hm, mkError]
    · intro m hm
      simp [handleFetchError, hff, hok, h404b, httpErrorMessage, hm, mkError]
    · intro hcase
      constructor
      · rcases hcase with hc | hc
        · exact ⟨"Request failed: ", " - " ++ r.bodyText.take 100, by
            simp [handleFetchError, hff, hok, h404b, httpErrorMessage, hc, mkError,
              String.append_assoc]⟩
        · by_cases hbt : r.bodyText = ""
          · exact ⟨"Request failed: ", "", by
              simp [handleFetchError, hff, hok, h404b, httpErrorMessage, hc, hbt, mkError]⟩
          · exact ⟨"Request failed: ", " - " ++ r.bodyText.take 100, by
              simp [handleFetchError, hff, hok, h404b, httpErrorMessage, hc, hbt, mkError,
                String.append_assoc]⟩
      · intro hc
        by_cases hbt : r.bodyText = ""
        · refine ⟨"Request failed: " ++ toString r.status, "", ?_⟩
          have htake : ("" : String).take 100 = "" := by decide
          simp [handleFetchError, hff, hok, h404b, httpErrorMessage, hc, hbt, mkError, htake]
        · refine ⟨"Request failed: " ++ toString r.status ++ " - ", "", ?_⟩
          simp [handleFetchError, hff, hok, h404b, httpErrorMessage, hc, hbt, mkError,
            String.append_assoc]
  · rfl
  · decide

/-- Witness for `handleFetchError_policy` at a concrete 500 response
with a non-JSON body. -/
theorem handleFetchError_policy_witness :
    ((⟨false, 500, "oops", BodyParse.notJson⟩ : HttpResponse).ok = false)
    ∧ (handleFetchError none (some ⟨false, 500, "oops", BodyParse.notJson⟩)).message
        = "Request failed: 500 - oops" := by
  refine ⟨rfl, ?_⟩
  have h := (handleFetchError_policy ⟨false, 500, "oops", BodyParse.notJson⟩ rfl).2.1
    (by decide)
  decide

/-- C1 (code bug): with a non-empty prompt in single-prompt mode and a
failing HTTP response, `optimizePrompt` throws the translated error to
its caller instead of returning the original prompt: the
`return prompt; // Fallback` line of the source is unreachable because
`handleFetchError(error)` in the `catch` block rethrows. -/
theorem optimizePrompt_http_error_throws :
    optimizePrompt "a cat on the beach" PromptMode.text
        (FetchOutcome.httpError ⟨false, 500, "", BodyParse.notJson⟩)
      = Except.error (mkError "Request failed: 500")
    ∧ optimizePrompt "a cat on the beach" PromptMode.text
        (FetchOutcome.httpError ⟨false, 500, "", BodyParse.notJson⟩)
      ≠ Except.ok "a cat on the beach"
    ∧ optimizePrompt "a cat on the beach" PromptMode.text
        (FetchOutcome.thrown ⟨"TypeError", "Failed to fetch"⟩)
      = Except.error (mkError corsHintMessage) := by
  refine ⟨rfl, fun h => ?_, rfl⟩
  exact absurd h (by simp [optimizePrompt, handleFetchError])

/-- One merge never erases an already-stamped (non-zero) completion
time: the stamping condition requires `!task.completedAt`. -/
theorem mergeTask_keeps_completedAt (task : VideoTask) (res : QueryVideoResponse)
    (now : Nat) (t : Nat) (h : task.completedAt = some t) (ht : t ≠ 0) :
    (mergeTask task res now).completedAt = some t := by
  unfold mergeTask mergedRecord
  by_cases hg : mergeGuard task res
  · simp [hg, h, jsFalsyNat, ht]
  · simp [hg, h]

/-- C2: the completion timestamp is assigned at most once.  For a task
whose record has no completion time yet and whose status is not yet
terminal, one merge stamps `completedAt` exactly when the merged status
is terminal, taking `status_update_time` when truthy and the local clock
`now` otherwise; and once `completedAt` holds a (non-zero) time, no
later merge — singly or in any sequence — overwrites it. -/
theorem completedAt_write_once (task : VideoTask) (res : QueryVideoResponse) (now : Nat)
    (merges : List (QueryVideoResponse × Nat)) :
    (∀ t, task.completedAt = some t → t ≠ 0 →
      (mergeTask task res now).completedAt = some t)
    ∧ (task.completedAt = none → task.status.isTerminal = false →
        (mergeTask task res now).completedAt =
          (if (mergedStatus task res).isTerminal = true
           then some (jsOrNat res.status_update_time now)
           else none))
    ∧ (∀ t, task.completedAt = some t → t ≠ 0 →
        (mergeRuns task merges).completedAt = some t) := by
  refine ⟨fun t h ht => mergeTask_keeps_completedAt task res now t h ht, ?_, ?_⟩
  · intro hnone hnt
    unfold mergeTask mergedRecord
    by_cases hg : mergeGuard task res
    · have hj : jsFalsyNat task.completedAt = true := by simp [hnone, jsFalsyNat]
      by_cases hterm : (mergedStatus task res).isTerminal = true
      · have hor : mergedStatus task res = TaskStatus.completed
            ∨ mergedStatus task res = TaskStatus.failed := by
          cases hms : mergedStatus task res <;>
            simp [TaskStatus.isTerminal, hms] at hterm ⊢
        simp [hg, hj, hor, hterm]
      · have hor : ¬(mergedStatus task res = TaskStatus.completed
            ∨ mergedStatus task res = TaskStatus.failed) := by
          cases hms : mergedStatus task res <;>
            simp [TaskStatus.isTerminal, hms] at hterm ⊢
        simp [hg, hj, hor, hterm, hnone]
    · have hms : mergedStatus task res = task.status := by
        by_contra hne
        exact hg (Or.inl hne)
      simp [hg, hnone, hms, hnt]
  · have hseq : ∀ (ms : List (QueryVideoResponse × Nat)) (tk : VideoTask) (t : Nat),
        tk.completedAt = some t → t ≠ 0 → (mergeRuns tk ms).completedAt = some t := by
      intro ms
      induction ms with
      | nil => intro tk t h _; simpa [mergeRuns] using h
      | cons p ps ih =>
        intro tk t h ht
        simp only [mergeRuns]
        exact ih _ t (mergeTask_keeps_completedAt tk p.1 p.2 t h ht) ht
    intro t h ht
    exact hseq merges task t h ht

/-- Witness for `completedAt_write_once`: a completed task keeps
`completedAt = 42` through one merge and through a two-merge sequence,
and a pending task reaching `completed` gets stamped with the remote
`status_update_time` 1111. -/
theorem completedAt_write_once_witness :
    (mergeTask ⟨"t2", TaskStatus.completed, "p", 100, some 42, some "u", none, some 50, none⟩
        ⟨"t2", some "completed", some "v", some 1111, none⟩ 5).completedAt = some 42
    ∧ (mergeTask ⟨"t1", TaskStatus.pending, "p", 100, none, none, none, none, none⟩
        ⟨"t1", some "completed", some "v", some 1111, none⟩ 5).completedAt = some 1111
    ∧ (mergeRuns ⟨"t2", TaskStatus.completed, "p", 100, some 42, some "u", none, some 50, none⟩
        [(⟨"t2", some "completed", some "v", some 1111, none⟩, 5),
         (⟨"t2", some "failed", none, none, none⟩, 6)]).completedAt = some 42 := by
  refine ⟨?_, ?_, ?_⟩
  · exact (completedAt_write_once _ ⟨"t2", some "completed", some "v", some 1111, none⟩ 5 []).1
      42 rfl (by decide)
  · have h := (completedAt_write_once
      ⟨"t1", TaskStatus.pending, "p", 100, none, none, none, none, none⟩
      ⟨"t1", some "completed", some "v", some 1111, none⟩ 5 []).2.1 rfl rfl
    rw [h]; rfl
  · exact (completedAt_write_once _ ⟨"t2", some "completed", some "v", some 1111, none⟩ 5
      [(⟨"t2", some "completed", some "v", some 1111, none⟩, 5),
       (⟨"t2", some "failed", none, none, none⟩, 6)]).2.2 42 rfl (by decide)

/-- C6: at every polling tick, a task is queried exactly when it is in
the list with non-terminal status (`pending` or `processing`), and the
queried set is the same at every tick index — there is no
maximum-attempt or timeout ceiling, so a task that stays non-terminal is
queried at every tick indefinitely. -/
theorem polling_queries_iff_nonterminal (tasks : List VideoTask) (t : VideoTask) (tick : Nat) :
    (t ∈ tasksQueriedAtTick tasks tick ↔ t ∈ tasks ∧ t.status.isTerminal = false)
    ∧ tasksQueriedAtTick tasks tick = tasksQueriedAtTick tasks (tick + 1) := by
  have hps : ∀ s : TaskStatus,
      (s == TaskStatus.pending || s == TaskStatus.processing) = !s.isTerminal := by
    intro s; cases s <;> rfl
  constructor
  · simp [tasksQueriedAtTick, pendingTasks, List.mem_filter, isPollable, hps]
  · rfl

/-- The record handed to `onUpdateTask` keeps the task's id. -/
theorem mergedRecord_id (task : VideoTask) (res : QueryVideoResponse) (now : Nat) :
    (mergedRecord task res now).id = task.id := rfl

/-- Replacing by id never changes any record's id, so a lookup in the
updated store finds the same position, rewritten when it has the
updated id. -/
theorem lookupTask_updateTaskInList (l : List VideoTask) (u : VideoTask) (x : String) :
    lookupTask (updateTaskInList l u) x
      = Option.map (fun t => if t.id = u.id then u else t) (lookupTask l x) := by
  unfold lookupTask updateTaskInList
  have hpred : ((fun t : VideoTask => t.id == x) ∘ fun t => if t.id = u.id then u else t)
      = fun t : VideoTask => t.id == x := by
    funext t
    by_cases h : t.id = u.id <;> simp [Function.comp, h]
  rw [List.find?_map, hpred]

/-- A lookup away from the updated id is untouched. -/
theorem lookupTask_update_ne (l : List VideoTask) (u : VideoTask) (x : String)
    (hx : x ≠ u.id) :
    lookupTask (updateTaskInList l u) x = lookupTask l x := by
  rw [lookupTask_updateTaskInList]
  cases hfind : lookupTask l x with
  | none => rfl
  | some w =>
    have hw : w.id = x := by
      unfold lookupTask at hfind
      simpa using List.find?_some hfind
    simp [hw, hx]

/-- Keys of the task store are preserved by a replace-by-id update. -/
theorem updateTaskInList_map_id (l : List VideoTask) (u : VideoTask) :
    (updateTaskInList l u).map (·.id) = l.map (·.id) := by
  induction l with
  | nil => rfl
  | cons t l ih =>
    unfold updateTaskInList at ih ⊢
    by_cases h : t.id = u.id <;> simp [h, ih]

/-- One loop iteration for a task with a different id does not move the
record stored under `x`. -/
theorem pollStep_lookup_ne (env : PollEnv) (acc : List VideoTask × List String)
    (q : VideoTask) (x : String) (hq : q.id ≠ x) :
    lookupTask (pollStep env acc q).1 x = lookupTask acc.1 x := by
  unfold pollStep
  cases houtq : env.outcome q.id with
  | ok res =>
    by_cases hg : mergeGuard q res
    · simp only [hg, if_pos]
      exact lookupTask_update_ne acc.1 (mergedRecord q res env.now) x
        (by rw [mergedRecord_id]; exact fun h => hq h.symm)
    · simp [hg]
  | error e => rfl

/-- The console log of the polling loop is the concatenation of the
per-task logs, in task order. -/
theorem pollFoldl_log (env : PollEnv) (P : List VideoTask) :
    ∀ acc : List VideoTask × List String,
      (P.foldl (pollStep env) acc).2 = acc.2 ++ (P.map (taskPollLog env)).flatten := by
  induction P with
  | nil => intro acc; simp
  | cons q P ih =>
    intro acc
    rw [List.foldl_cons, ih]
    have hstep : (pollStep env acc q).2 = acc.2 ++ taskPollLog env q := by
      unfold pollStep taskPollLog
      cases houtq : env.outcome q.id with
      | ok res => by_cases hg : mergeGuard q res <;> simp [hg]
      | error e => rfl
    rw [hstep]
    simp [List.append_assoc]

/-- Where each record ends up after the sequential loop over a list of
captured tasks `P` with pairwise distinct ids: the record stored under
`x` is rewritten exactly by the iteration for the `P`-entry with id `x`
(if any, and only when its query succeeds and the merge guard fires),
and is otherwise left as it was. -/
theorem pollFoldl_lookup (env : PollEnv) (P : List VideoTask) :
    ∀ (acc : List VideoTask × List String) (x : String),
      (P.map (·.id)).Nodup →
      ((P.find? (fun p => p.id == x) = none →
          lookupTask (P.foldl (pollStep env) acc).1 x = lookupTask acc.1 x)
       ∧ (∀ p, P.find? (fun p => p.id == x) = some p →
          lookupTask (P.foldl (pollStep env) acc).1 x =
            (match env.outcome p.id with
             | Except.ok res =>
               if mergeGuard p res then
                 Option.map (fun _ => mergedRecord p res env.now) (lookupTask acc.1 x)
               else lookupTask acc.1 x
             | Except.error _ => lookupTask acc.1 x))) := by
  induction P with
  | nil =>
    intro acc x _
    exact ⟨fun _ => rfl, fun p hp => by simp at hp⟩
  | cons q P ih =>
    intro acc x hnd
    have hcons := List.nodup_cons.mp (show (q.id :: P.map (·.id)).Nodup from hnd)
    have hqid : q.id ∉ P.map (·.id) := hcons.1
    have hnd' : (P.map (·.id)).Nodup := hcons.2
    by_cases hpx : q.id = x
    · have hfind : (q :: P).find? (fun p => p.id == x) = some q := by
        simp [List.find?_cons, hpx]
      have hPnone : P.find? (fun p => p.id == x) = none := by
        rw [List.find?_eq_none]
        intro a ha hpa
        apply hqid
        have hax : a.id = x := by simpa using hpa
        rw [hpx, ← hax]
        exact List.mem_map_of_mem _ ha
      constructor
      · intro hnone
        rw [hfind] at hnone
        exact absurd hnone (by simp)
      · intro p hp
        rw [hfind] at hp
        have hpq : p = q := (Option.some.inj hp).symm
        subst hpq
        rw [List.foldl_cons, (ih (pollStep env acc p) x hnd').1 hPnone]
        unfold pollStep
        cases houtq : env.outcome p.id with
        | ok res =>
          by_cases hg : mergeGuard p res
          · simp only [hg, if_pos]
            rw [lookupTask_updateTaskInList]
            cases hl : lookupTask acc.1 x with
            | none => rfl
            | some w =>
              have hw : w.id = x := by
                unfold lookupTask at hl
                simpa using List.find?_some hl
              simp [hw, ← hpx, mergedRecord_id]
          · simp [hg]
        | error e => rfl
    · have hq : (q.id == x) = false := by simp [hpx]
      have hfind : (q :: P).find? (fun p => p.id == x) = P.find? (fun p => p.id == x) := by
        simp [List.find?_cons, hq]
      have hstep : lookupTask (pollStep env acc q).1 x = lookupTask acc.1 x :=
        pollStep_lookup_ne env acc q x hpx
      constructor
      · intro hnone
        rw [hfind] at hnone
        rw [List.foldl_cons, (ih (pollStep env acc q) x hnd').1 hnone, hstep]
      · intro p hp
        rw [hfind] at hp
        rw [List.foldl_cons, (ih (pollStep env acc q) x hnd').2 p hp, hstep]

/-- In a store with pairwise distinct ids, the first record matching a
member's id is that member. -/
theorem find?_id_self (l : List VideoTask) (hnd : (l.map (·.id)).Nodup)
    (t : VideoTask) (ht : t ∈ l) :
    l.find? (fun p => p.id == t.id) = some t := by
  have hsome : (l.find? fun p => p.id == t.id).isSome := by
    rw [List.find?_isSome]
    exact ⟨t, ht, by simp⟩
  obtain ⟨w, hw⟩ := Option.isSome_iff_exists.mp hsome
  have hwid : w.id = t.id := by simpa using List.find?_some hw
  have hwt : w = t :=
    List.inj_on_of_nodup_map hnd (List.mem_of_find?_eq_some hw) ht hwid
  rw [hw, hwt]

/-- C7: when the status query of one captured task throws, that task's
stored record is left completely unchanged, the error is logged (the
tick's console log contains the `Failed to poll task` line), the tick as
a whole still returns (the loop body's `try`/`catch` absorbs the
throw), and every other captured task whose query succeeds is still
merged exactly as it would have been. -/
theorem pollTick_error_isolated (env : PollEnv) (tasks : List VideoTask)
    (task : VideoTask) (e : JsError)
    (hnd : (tasks.map (·.id)).Nodup)
    (hmem : task ∈ pendingTasks tasks)
    (herr : env.outcome task.id = Except.error e) :
    lookupTask (pollTick env tasks).1 task.id = some task
    ∧ ("Failed to poll task " ++ task.id) ∈ (pollTick env tasks).2
    ∧ ∀ (other : VideoTask) (res : QueryVideoResponse),
        other ∈ pendingTasks tasks → env.outcome other.id = Except.ok res →
        lookupTask (pollTick env tasks).1 other.id = some (mergeTask other res env.now) := by
  have hnpd : ((pendingTasks tasks).map (·.id)).Nodup :=
    hnd.sublist ((List.filter_sublist tasks).map (·.id))
  have hmemT : task ∈ tasks := List.mem_of_mem_filter hmem
  have hlook : lookupTask tasks task.id = some task := by
    unfold lookupTask
    exact find?_id_self tasks hnd task hmemT
  refine ⟨?_, ?_, ?_⟩
  · have hfindP : (pendingTasks tasks).find? (fun p => p.id == task.id) = some task :=
      find?_id_self _ hnpd task hmem
    have h := (pollFoldl_lookup env (pendingTasks tasks) (tasks, []) task.id hnpd).2
      task hfindP
    simp only [herr] at h
    unfold pollTick
    rw [h]
    exact hlook
  · have hlog : (pollTick env tasks).2 = ((pendingTasks tasks).map (taskPollLog env)).flatten := by
      unfold pollTick
      rw [pollFoldl_log]
      rfl
    rw [hlog]
    apply List.mem_flatten.mpr
    refine ⟨taskPollLog env task, List.mem_map_of_mem _ hmem, ?_⟩
    simp [taskPollLog, herr, queryErrorLog]
  · intro other res hom hores
    have hmemO : other ∈ tasks := List.mem_of_mem_filter hom
    have hlookO : lookupTask tasks other.id = some other := by
      unfold lookupTask
      exact find?_id_self tasks hnd other hmemO
    have hfindO : (pendingTasks tasks).find? (fun p => p.id == other.id) = some other :=
      find?_id_self _ hnpd other hom
    have h := (pollFoldl_lookup env (pendingTasks tasks) (tasks, []) other.id hnpd).2
      other hfindO
    simp only [hores] at h
    unfold pollTick
    by_cases hg : mergeGuard other res
    · rw [h, if_pos hg, hlookO]
      unfold mergeTask
      rw [if_pos hg]
      rfl
    · rw [h, if_neg hg, hlookO]
      unfold mergeTask
      rw [if_neg hg]

/-- Witness for `pollTick_error_isolated`: task `a`'s query throws, task
`b`'s succeeds; `a` stays untouched, the log records the failure, `b` is
merged. -/
theorem pollTick_error_isolated_witness :
    lookupTask (pollTick sampleEnv [sampleTaskA, sampleTaskB]).1 sampleTaskA.id
      = some sampleTaskA
    ∧ ("Failed to poll task " ++ sampleTaskA.id)
        ∈ (pollTick sampleEnv [sampleTaskA, sampleTaskB]).2
    ∧ lookupTask (pollTick sampleEnv [sampleTaskA, sampleTaskB]).1 sampleTaskB.id
        = some (mergeTask sampleTaskB
            ⟨"b", some "completed", some "https://x/y.mp4", some 7, none⟩ 9) := by
  have h := pollTick_error_isolated sampleEnv [sampleTaskA, sampleTaskB] sampleTaskA
    ⟨"Error", "boom"⟩ (by decide) (by decide) rfl
  exact ⟨h.1, h.2.1, h.2.2 sampleTaskB
    ⟨"b", some "completed", some "https://x/y.mp4", some 7, none⟩ (by decide) rfl⟩

/-- The duration fold, started anywhere. -/
theorem foldl_dur (segs : List StoryboardSegment) : ∀ a : Int,
    segs.foldl (fun sum seg => sum + seg.duration) a = a + (segs.map (·.duration)).sum := by
  induction segs with
  | nil => intro a; simp
  | cons s rest ih => intro a; simp [List.foldl_cons, ih, add_assoc]

/-- The duration total is the sum of the durations. -/
theorem totalSegmentDuration_eq_sum (segs : List StoryboardSegment) :
    totalSegmentDuration segs = (segs.map (·.duration)).sum := by
  unfold totalSegmentDuration
  rw [foldl_dur]
  simp

/-- Peeling one segment off the total. -/
theorem totalSegmentDuration_cons (s : StoryboardSegment) (rest : List StoryboardSegment) :
    totalSegmentDuration (s :: rest) = s.duration + totalSegmentDuration rest := by
  simp [totalSegmentDuration_eq_sum]

/-- The replay loop never exceeds the remaining budget. -/
theorem clampLoop_sum_le (duration : Int) (segs : List StoryboardSegment) : ∀ acc : Int,
    acc ≤ duration →
    totalSegmentDuration (clampSegmentsLoop duration acc segs) ≤ duration - acc := by
  induction segs with
  | nil =>
    intro acc h
    simp only [clampSegmentsLoop]
    rw [totalSegmentDuration_eq_sum]
    simp
    omega
  | cons s rest ih =>
    intro acc h
    unfold clampSegmentsLoop
    by_cases hstop : acc ≥ duration
    · rw [if_pos hstop, totalSegmentDuration_eq_sum]
      simp
      omega
    · rw [if_neg hstop]
      by_cases htrim : acc + s.duration > duration
      · have hpos : duration - acc > 0 := by omega
        simp only [if_pos htrim, if_pos hpos, totalSegmentDuration_cons]
        have hrec := ih (acc + (duration - acc)) (by omega)
        omega
      · by_cases hposd : s.duration > 0
        · simp only [if_neg htrim, if_pos hposd, totalSegmentDuration_cons]
          have hrec := ih (acc + s.duration) (by omega)
          omega
        · simp only [if_neg htrim, if_neg hposd]
          exact ih acc h

/-- A negative or zero remaining budget stops the replay immediately. -/
theorem clampLoop_of_nonpos (duration : Int) (h : duration ≤ 0)
    (segs : List StoryboardSegment) : clampSegmentsLoop duration 0 segs = [] := by
  cases segs with
  | nil => rfl
  | cons s rest =>
    unfold clampSegmentsLoop
    rw [if_pos (by omega)]

/-- The reconciled segment list never exceeds the new target. -/
theorem clampSegments_sum_le_target (duration : Int) (fallbackId : String)
    (segs : List StoryboardSegment) :
    totalSegmentDuration (clampSegments duration fallbackId segs) ≤ duration := by
  unfold clampSegments
  by_cases hempty : clampSegmentsLoop duration 0 segs = []
  · rw [if_pos hempty, totalSegmentDuration_eq_sum]
    simp
  · rw [if_neg hempty]
    by_cases hd : (0 : Int) ≤ duration
    · have := clampLoop_sum_le duration segs 0 hd
      omega
    · exact absurd (clampLoop_of_nonpos duration (by omega) segs) hempty

/-- The reconciled segment list is never empty. -/
theorem clampSegments_length_pos (duration : Int) (fallbackId : String)
    (segs : List StoryboardSegment) :
    1 ≤ (clampSegments duration fallbackId segs).length := by
  unfold clampSegments
  by_cases hempty : clampSegmentsLoop duration 0 segs = []
  · rw [if_pos hempty]
    simp
  · rw [if_neg hempty]
    exact List.length_pos.mpr hempty

/-- C4: reconciling the segment list to a new target duration always
yields a duration sum at most the new target and at least one segment;
in particular segments 5/5/5 reconciled from target 15 to 10 become
exactly 5/5 (the third dropped). -/
theorem clampSegments_spec (duration : Int) (fallbackId : String)
    (segs : List StoryboardSegment) :
    totalSegmentDuration (clampSegments duration fallbackId segs) ≤ duration
    ∧ 1 ≤ (clampSegments duration fallbackId segs).length
    ∧ clampSegments 10 "f" [⟨"1", 5, "a"⟩, ⟨"2", 5, "b"⟩, ⟨"3", 5, "c"⟩]
        = [⟨"1", 5, "a"⟩, ⟨"2", 5, "b"⟩] :=
  ⟨clampSegments_sum_le_target duration fallbackId segs,
   clampSegments_length_pos duration fallbackId segs, by decide⟩

/-- Cumulative duration, one segment deeper. -/
theorem prefixDuration_cons_succ (s : StoryboardSegment) (rest : List StoryboardSegment)
    (i : Nat) :
    prefixDuration (s :: rest) (i + 1) = s.duration + prefixDuration rest i := by
  unfold prefixDuration
  rw [List.take_succ_cons, totalSegmentDuration_cons]

/-- The running-time map of the preview builder produces exactly the
cumulative-boundary parts, from any starting offset. -/
theorem previewParts_eq (segs : List StoryboardSegment) : ∀ c : Int,
    previewParts c segs = (List.range segs.length).map fun i =>
      "[" ++ toString (c + prefixDuration segs i) ++ "s-"
        ++ toString (c + prefixDuration segs (i + 1)) ++ "s] "
        ++ (segs.getD i ⟨"", 0, ""⟩).description := by
  induction segs with
  | nil => intro c; rfl
  | cons s rest ih =>
    intro c
    rw [List.length_cons, List.range_succ_eq_map, List.map_cons]
    unfold previewParts
    congr 1
    · have h0 : prefixDuration (s :: rest) 0 = 0 := rfl
      have h1 : prefixDuration (s :: rest) (0 + 1) = s.duration := by
        rw [prefixDuration_cons_succ]
        simp [prefixDuration, totalSegmentDuration]
      rw [h0, h1]
      simp
    · rw [ih (c + s.duration), List.map_map]
      apply List.map_congr_left
      intro i _
      simp only [Function.comp, Nat.succ_eq_add_one]
      rw [prefixDuration_cons_succ, prefixDuration_cons_succ]
      simp [add_assoc]

/-- The preview parts coincide with the specification's
cumulative-boundary parts: boundaries are `[0, d1], [d1, d1+d2], …`,
with no gaps or overlaps. -/
theorem previewParts_boundaries (segs : List StoryboardSegment) :
    previewParts 0 segs = specScriptParts segs := by
  rw [previewParts_eq segs 0]
  unfold specScriptParts
  apply List.map_congr_left
  intro i _
  simp [zero_add]

/-- C5: the edit→preview transition succeeds exactly when the duration
sum equals the target and every description is non-blank; on success the
preview is the in-order concatenation of the `[start s-end s]
description` parts with cumulative boundaries; in particular segments
(4, A) and (6, B) under target 10 yield `[0s-4s] A` then `[4s-10s] B`. -/
theorem handlePreview_spec (duration : Int) (segs : List StoryboardSegment) :
    ((∃ script, handlePreviewAndOptimize duration segs = Except.ok script) ↔
      (totalSegmentDuration segs = duration ∧ ∀ s ∈ segs, jsTrim s.description ≠ ""))
    ∧ previewParts 0 segs = specScriptParts segs
    ∧ (totalSegmentDuration segs = duration → (∀ s ∈ segs, jsTrim s.description ≠ "") →
        handlePreviewAndOptimize duration segs
          = Except.ok (String.intercalate "\n\n" (previewParts 0 segs)))
    ∧ handlePreviewAndOptimize 10 [⟨"1", 4, "A"⟩, ⟨"2", 6, "B"⟩]
        = Except.ok "[0s-4s] A\n\n[4s-10s] B" := by
  refine ⟨?_, previewParts_boundaries segs, ?_, by rfl⟩
  · unfold handlePreviewAndOptimize
    by_cases h1 : totalSegmentDuration segs ≠ duration
    · rw [if_pos h1]
      constructor
      · rintro ⟨script, hs⟩
        simp at hs
      · rintro ⟨heq, _⟩
        exact absurd heq h1
    · rw [if_neg h1]
      push_neg at h1
      by_cases h2 : (segs.any fun s => jsTrim s.description == "") = true
      · rw [if_pos h2]
        constructor
        · rintro ⟨script, hs⟩
          simp at hs
        · rintro ⟨_, hall⟩
          obtain ⟨s, hsmem, hs⟩ := List.any_eq_true.mp h2
          exact absurd (by simpa using hs) (hall s hsmem)
      · rw [if_neg h2]
        constructor
        · intro _
          exact ⟨h1, fun s hsmem => by
            rw [List.any_eq_true] at h2
            push_neg at h2
            simpa using h2 s hsmem⟩
        · intro _
          exact ⟨String.intercalate "\n\n" (previewParts 0 segs), rfl⟩
  · intro h1 hall
    unfold handlePreviewAndOptimize
    rw [if_neg (by omega : ¬totalSegmentDuration segs ≠ duration)]
    rw [if_neg ?hblank]
    case hblank =>
      rw [List.any_eq_true]
      push_neg
      intro s hsmem
      simpa using hall s hsmem

/-- The total over a concatenation. -/
theorem totalSegmentDuration_append (l₁ l₂ : List StoryboardSegment) :
    totalSegmentDuration (l₁ ++ l₂) = totalSegmentDuration l₁ + totalSegmentDuration l₂ := by
  simp [totalSegmentDuration_eq_sum]

/-- A duration edit leaves every id in place. -/
theorem updateSegmentDuration_ids (duration : Int) (id : String) (v : Int)
    (segs : List StoryboardSegment) :
    (updateSegmentDuration duration id v segs).map (·.id) = segs.map (·.id) := by
  simp only [updateSegmentDuration, List.map_map]
  apply List.map_congr_left
  intro s _
  by_cases h : s.id = id <;> simp [h]

/-- A duration edit leaves the number of segments in place. -/
theorem updateSegmentDuration_length (duration : Int) (id : String) (v : Int)
    (segs : List StoryboardSegment) :
    (updateSegmentDuration duration id v segs).length = segs.length := by
  simp [updateSegmentDuration]

/-- A description edit leaves every id in place. -/
theorem updateSegmentDescription_ids (id : String) (v : String)
    (segs : List StoryboardSegment) :
    (updateSegmentDescription id v segs).map (·.id) = segs.map (·.id) := by
  simp only [updateSegmentDescription, List.map_map]
  apply List.map_congr_left
  intro s _
  by_cases h : s.id = id <;> simp [h]

/-- A description edit leaves the number of segments in place. -/
theorem updateSegmentDescription_length (id : String) (v : String)
    (segs : List StoryboardSegment) :
    (updateSegmentDescription id v segs).length = segs.length := by
  simp [updateSegmentDescription]

/-- A description edit leaves every duration in place. -/
theorem updateSegmentDescription_sum (id : String) (v : String)
    (segs : List StoryboardSegment) :
    totalSegmentDuration (updateSegmentDescription id v segs)
      = totalSegmentDuration segs := by
  simp only [totalSegmentDuration_eq_sum, updateSegmentDescription, List.map_map]
  congr 1
  apply List.map_congr_left
  intro s _
  by_cases h : s.id = id <;> simp [h]

/-- When the edited id is absent, a duration edit is the identity. -/
theorem map_update_not_mem (w : Int) (id : String) (segs : List StoryboardSegment)
    (hmem : id ∉ segs.map (·.id)) :
    (segs.map fun s => if s.id = id then { s with duration := w } else s) = segs := by
  induction segs with
  | nil => rfl
  | cons t rest ih =>
    simp only [List.map_cons, List.mem_cons, not_or] at hmem ⊢
    have ht : t.id ≠ id := fun h => hmem.1 h.symm
    rw [if_neg ht, ih hmem.2]

/-- Splitting the updated sum around the unique segment carrying the
edited id. -/
theorem sum_map_update (w : Int) (id : String) (l₁ l₂ : List StoryboardSegment)
    (s : StoryboardSegment) (hsid : s.id = id)
    (h1 : id ∉ l₁.map (·.id)) (h2 : id ∉ l₂.map (·.id)) :
    totalSegmentDuration
      ((l₁ ++ s :: l₂).map fun t => if t.id = id then { t with duration := w } else t)
      = totalSegmentDuration l₁ + w + totalSegmentDuration l₂ := by
  rw [List.map_append, List.map_cons, if_pos hsid]
  rw [map_update_not_mem w id l₁ h1, map_update_not_mem w id l₂ h2]
  rw [totalSegmentDuration_append, totalSegmentDuration_cons]
  have hw : ({ s with duration := w } : StoryboardSegment).duration = w := rfl
  rw [hw]
  omega

/-- The other-segments filter removes exactly the unique segment with
the edited id. -/
theorem filter_ne_of_split (id : String) (l₁ l₂ : List StoryboardSegment)
    (s : StoryboardSegment) (hsid : s.id = id)
    (h1 : id ∉ l₁.map (·.id)) (h2 : id ∉ l₂.map (·.id)) :
    (l₁ ++ s :: l₂).filter (fun t => t.id != id) = l₁ ++ l₂ := by
  rw [List.filter_append, List.filter_cons]
  have hs : (s.id != id) = false := by simp [hsid]
  rw [hs]
  simp only [Bool.false_eq_true, if_false]
  have hf1 : l₁.filter (fun t => t.id != id) = l₁ := by
    rw [List.filter_eq_self]
    intro a ha
    simp only [bne_iff_ne, ne_eq]
    exact fun h => h1 (h ▸ List.mem_map_of_mem _ ha)
  have hf2 : l₂.filter (fun t => t.id != id) = l₂ := by
    rw [List.filter_eq_self]
    intro a ha
    simp only [bne_iff_ne, ne_eq]
    exact fun h => h2 (h ▸ List.mem_map_of_mem _ ha)
  rw [hf1, hf2]

/-- In a list with distinct ids whose sum respects the target, a
duration edit keeps the sum at most the target: the edited segment is
clamped to the target minus the other segments' total. -/
theorem updateSegmentDuration_sum_le (duration : Int) (id : String) (v : Int)
    (segs : List StoryboardSegment)
    (hnd : (segs.map (·.id)).Nodup)
    (hs : totalSegmentDuration segs ≤ duration) :
    totalSegmentDuration (updateSegmentDuration duration id v segs) ≤ duration := by
  by_cases hmem : id ∈ segs.map (·.id)
  · obtain ⟨s, hsmem, hsid⟩ := List.mem_map.mp hmem
    obtain ⟨l₁, l₂, rfl⟩ := List.append_of_mem hsmem
    rw [List.map_append, List.map_cons, List.nodup_append] at hnd
    have hdisj := hnd.2.2
    have hcons := List.nodup_cons.mp hnd.2.1
    have h1 : id ∉ l₁.map (·.id) := by
      intro hin
      exact hdisj hin (by simp [hsid])
    have h2 : id ∉ l₂.map (·.id) := by
      intro hin
      rw [← hsid] at hin
      exact hcons.1 hin
    simp only [updateSegmentDuration]
    rw [filter_ne_of_split id l₁ l₂ s hsid h1 h2]
    rw [sum_map_update _ id l₁ l₂ s hsid h1 h2]
    have hmin := min_le_right (max 0 v)
      (duration - ((l₁ ++ l₂).foldl (fun sum s => sum + s.duration) 0))
    have htot : ((l₁ ++ l₂).foldl (fun sum s => sum + s.duration) 0)
        = totalSegmentDuration l₁ + totalSegmentDuration l₂ := by
      rw [show ((l₁ ++ l₂).foldl (fun sum s => sum + s.duration) 0)
          = totalSegmentDuration (l₁ ++ l₂) from rfl, totalSegmentDuration_append]
    omega
  · have heq : updateSegmentDuration duration id v segs = segs := by
      simp only [updateSegmentDuration]
      exact map_update_not_mem _ id segs hmem
    rw [heq]
    exact hs

/-- An accepted addition stays within the target. -/
theorem addSegment_sum_le (duration : Int) (newId : String)
    (segs : List StoryboardSegment)
    (hs : totalSegmentDuration segs ≤ duration) :
    totalSegmentDuration (addSegment duration newId segs).1 ≤ duration := by
  unfold addSegment
  by_cases h : totalSegmentDuration segs ≥ duration
  · rw [if_pos h]
    exact hs
  · rw [if_neg h]
    simp only [totalSegmentDuration_append, totalSegmentDuration_cons]
    have hmax : max 1 (duration - totalSegmentDuration segs)
        = duration - totalSegmentDuration segs := max_eq_right (by omega)
    rw [hmax]
    have hmin := min_le_right (5 : Int) (duration - totalSegmentDuration segs)
    have hnil : totalSegmentDuration ([] : List StoryboardSegment) = 0 := rfl
    rw [hnil]
    omega

/-- Adding never removes segments. -/
theorem addSegment_length_pos (duration : Int) (newId : String)
    (segs : List StoryboardSegment) (h : 1 ≤ segs.length) :
    1 ≤ (addSegment duration newId segs).1.length := by
  unfold addSegment
  by_cases hge : totalSegmentDuration segs ≥ duration
  · rw [if_pos hge]
    exact h
  · rw [if_neg hge]
    simp

/-- Adding a fresh id keeps the ids pairwise distinct. -/
theorem addSegment_nodup (duration : Int) (newId : String)
    (segs : List StoryboardSegment)
    (hnd : (segs.map (·.id)).Nodup) (hfresh : newId ∉ segs.map (·.id)) :
    ((addSegment duration newId segs).1.map (·.id)).Nodup := by
  unfold addSegment
  by_cases hge : totalSegmentDuration segs ≥ duration
  · rw [if_pos hge]
    exact hnd
  · rw [if_neg hge]
    simp only [List.map_append, List.map_cons, List.map_nil]
    rw [List.nodup_append]
    exact ⟨hnd, List.nodup_singleton _, by simpa using hfresh⟩

/-- With distinct ids, removal drops at most one segment. -/
theorem filter_ne_length_ge (segs : List StoryboardSegment) (id : String)
    (hnd : (segs.map (·.id)).Nodup) :
    segs.length ≤ (segs.filter fun s => s.id != id).length + 1 := by
  induction segs with
  | nil => simp
  | cons s rest ih =>
    have hcons := List.nodup_cons.mp (show (s.id :: rest.map (·.id)).Nodup from hnd)
    rw [List.filter_cons]
    by_cases h : s.id = id
    · have hb : (s.id != id) = false := by simp [h]
      rw [hb]
      simp only [Bool.false_eq_true, if_false]
      have hall : ∀ a ∈ rest, (a.id != id) = true := by
        intro a ha
        simp only [bne_iff_ne, ne_eq]
        intro haid
        exact hcons.1 (by
          rw [h, ← haid]
          exact List.mem_map_of_mem _ ha)
      rw [List.filter_eq_self.mpr hall]
      simp
    · have hb : (s.id != id) = true := by simp [h]
      rw [hb]
      simp only [if_true]
      have := ih hcons.2
      simp only [List.length_cons]
      omega

/-- Removal keeps at least one segment. -/
theorem removeSegment_length_pos (id : String) (segs : List StoryboardSegment)
    (hnd : (segs.map (·.id)).Nodup) (h : 1 ≤ segs.length) :
    1 ≤ (removeSegment id segs).length := by
  unfold removeSegment
  by_cases hlen : segs.length > 1
  · rw [if_pos hlen]
    have := filter_ne_length_ge segs id hnd
    omega
  · rw [if_neg hlen]
    exact h

/-- Removal keeps the ids a sub-sequence of what they were. -/
theorem removeSegment_ids_sublist (id : String) (segs : List StoryboardSegment) :
    List.Sublist ((removeSegment id segs).map (·.id)) (segs.map (·.id)) := by
  unfold removeSegment
  by_cases hlen : segs.length > 1
  · rw [if_pos hlen]
    exact (List.filter_sublist segs).map _
  · rw [if_neg hlen]

/-- The replay loop keeps the ids a sub-sequence of what they were. -/
theorem clampLoop_ids_sublist (duration : Int) (segs : List StoryboardSegment) : ∀ acc : Int,
    List.Sublist ((clampSegmentsLoop duration acc segs).map (·.id)) (segs.map (·.id)) := by
  induction segs with
  | nil => intro acc; simp [clampSegmentsLoop]
  | cons s rest ih =>
    intro acc
    unfold clampSegmentsLoop
    by_cases hstop : acc ≥ duration
    · rw [if_pos hstop]
      simp
    · rw [if_neg hstop]
      by_cases htrim : acc + s.duration > duration
      · simp only [if_pos htrim]
        by_cases hpos : duration - acc > 0
        · simp only [if_pos hpos, List.map_cons]
          exact List.Sublist.cons₂ _ (ih _)
        · simp only [if_neg hpos]
          exact (ih acc).cons _
      · simp only [if_neg htrim]
        by_cases hpos : s.duration > 0
        · simp only [if_pos hpos, List.map_cons]
          exact List.Sublist.cons₂ _ (ih _)
        · simp only [if_neg hpos]
          exact (ih acc).cons _

/-- Reconciliation keeps the ids pairwise distinct. -/
theorem clampSegments_nodup (duration : Int) (fid : String)
    (segs : List StoryboardSegment) (hnd : (segs.map (·.id)).Nodup) :
    ((clampSegments duration fid segs).map (·.id)).Nodup := by
  unfold clampSegments
  by_cases hempty : clampSegmentsLoop duration 0 segs = []
  · rw [if_pos hempty]
    simp
  · rw [if_neg hempty]
    exact hnd.sublist (clampLoop_ids_sublist duration segs 0)

/-- One storyboard action preserves the id discipline, non-emptiness,
and — for edits and adds — the target and the sum bound. -/
theorem applyAction_inv (st : PanelState) (a : PanelAction)
    (hnd : (st.storyboardSegments.map (·.id)).Nodup)
    (hguard : actionGuard st a = true) :
    (((applyAction st a).storyboardSegments.map (·.id)).Nodup)
    ∧ (1 ≤ st.storyboardSegments.length → 1 ≤ (applyAction st a).storyboardSegments.length)
    ∧ (isEditOrAdd a = true →
        (applyAction st a).duration = st.duration
        ∧ (totalSegmentDuration st.storyboardSegments ≤ st.duration →
            totalSegmentDuration (applyAction st a).storyboardSegments ≤ st.duration)) := by
  cases a with
  | editDuration id v =>
    refine ⟨?_, ?_, fun _ => ⟨rfl, ?_⟩⟩
    · rw [show (applyAction st (PanelAction.editDuration id v)).storyboardSegments
          = updateSegmentDuration st.duration id v st.storyboardSegments from rfl]
      rw [updateSegmentDuration_ids]
      exact hnd
    · intro h
      rw [show (applyAction st (PanelAction.editDuration id v)).storyboardSegments
          = updateSegmentDuration st.duration id v st.storyboardSegments from rfl]
      rw [updateSegmentDuration_length]
      exact h
    · intro hs
      exact updateSegmentDuration_sum_le st.duration id v st.storyboardSegments hnd hs
  | editDescription id v =>
    refine ⟨?_, ?_, fun _ => ⟨rfl, ?_⟩⟩
    · rw [show (applyAction st (PanelAction.editDescription id v)).storyboardSegments
          = updateSegmentDescription id v st.storyboardSegments from rfl]
      rw [updateSegmentDescription_ids]
      exact hnd
    · intro h
      rw [show (applyAction st (PanelAction.editDescription id v)).storyboardSegments
          = updateSegmentDescription id v st.storyboardSegments from rfl]
      rw [updateSegmentDescription_length]
      exact h
    · intro hs
      rw [show (applyAction st (PanelAction.editDescription id v)).storyboardSegments
          = updateSegmentDescription id v st.storyboardSegments from rfl]
      rw [updateSegmentDescription_sum]
      exact hs
  | addSeg newId =>
    have hfresh : newId ∉ st.storyboardSegments.map (·.id) := by
      simpa [actionGuard] using hguard
    refine ⟨?_, ?_, fun _ => ⟨rfl, ?_⟩⟩
    · exact addSegment_nodup st.duration newId st.storyboardSegments hnd hfresh
    · exact addSegment_length_pos st.duration newId st.storyboardSegments
    · intro hs
      exact addSegment_sum_le st.duration newId st.storyboardSegments hs
  | removeSeg id =>
    refine ⟨?_, ?_, ?_⟩
    · exact hnd.sublist (removeSegment_ids_sublist id st.storyboardSegments)
    · exact removeSegment_length_pos id st.storyboardSegments hnd
    · intro h
      simp [isEditOrAdd] at h
  | setDuration d fid =>
    refine ⟨?_, ?_, ?_⟩
    · exact clampSegments_nodup d fid st.storyboardSegments hnd
    · intro _
      exact clampSegments_length_pos d fid st.storyboardSegments
    · intro h
      simp [isEditOrAdd] at h

/-- A whole action run preserves the id discipline, non-emptiness, and —
when every action is an edit or add — the target and the sum bound. -/
theorem applyActions_inv (ops : List PanelAction) : ∀ st : PanelState,
    (st.storyboardSegments.map (·.id)).Nodup →
    freshActions st ops = true →
    (((applyActions st ops).storyboardSegments.map (·.id)).Nodup
     ∧ (1 ≤ st.storyboardSegments.length →
        1 ≤ (applyActions st ops).storyboardSegments.length)
     ∧ ((∀ a ∈ ops, isEditOrAdd a = true) →
        totalSegmentDuration st.storyboardSegments ≤ st.duration →
        (applyActions st ops).duration = st.duration
        ∧ totalSegmentDuration (applyActions st ops).storyboardSegments ≤ st.duration)) := by
  induction ops with
  | nil =>
    intro st hnd _
    exact ⟨hnd, fun h => h, fun _ hs => ⟨rfl, hs⟩⟩
  | cons a rest ih =>
    intro st hnd hfresh
    rw [show freshActions st (a :: rest)
        = (actionGuard st a && freshActions (applyAction st a) rest) from rfl] at hfresh
    rw [Bool.and_eq_true] at hfresh
    have hstep := applyAction_inv st a hnd hfresh.1
    have hrec := ih (applyAction st a) hstep.1 hfresh.2
    refine ⟨hrec.1, fun h => hrec.2.1 (hstep.2.1 h), ?_⟩
    intro hall hs
    have ha : isEditOrAdd a = true := hall a (List.mem_cons_self a rest)
    have hstep3 := hstep.2.2 ha
    have hrest : ∀ b ∈ rest, isEditOrAdd b = true :=
      fun b hb => hall b (List.mem_cons_of_mem a hb)
    have hrec3 := hrec.2.2 hrest (by rw [hstep3.1]; exact hstep3.2 hs)
    rw [show applyActions st (a :: rest) = applyActions (applyAction st a) rest from rfl]
    rw [hrec3.1, hstep3.1]
    exact ⟨rfl, by rw [← hstep3.1]; exact hrec3.2⟩

/-- C3: starting from a storyboard whose duration sum is within the
target (and whose ids are pairwise distinct, as the panel's id
generation provides), any sequence of duration edits, description edits
and additions with fresh generated ids keeps the sum within the target;
moreover an addition is rejected unchanged once the running total equals
the target, an accepted addition defaults to `min 5 (target − total)`,
and an edited segment is clamped to at most the target minus the other
segments' total. -/
theorem storyboard_sum_invariant (target : Int) (segs : List StoryboardSegment)
    (ops : List PanelAction)
    (hnd : (segs.map (·.id)).Nodup)
    (hsum : totalSegmentDuration segs ≤ target)
    (hfresh : freshActions ⟨target, segs⟩ ops = true)
    (hops : ∀ a ∈ ops, isEditOrAdd a = true) :
    totalSegmentDuration (applyActions ⟨target, segs⟩ ops).storyboardSegments ≤ target
    ∧ (∀ newId, totalSegmentDuration segs = target →
        addSegment target newId segs
          = (segs, some "分镜总时长已达到视频总时长，无法添加更多分镜"))
    ∧ (∀ newId, totalSegmentDuration segs < target →
        addSegment target newId segs
          = (segs ++ [⟨newId, min 5 (target - totalSegmentDuration segs), ""⟩], none))
    ∧ (∀ id v s', s' ∈ updateSegmentDuration target id v segs → s'.id = id →
        s'.duration ≤ target -
          ((segs.filter fun s => s.id != id).foldl (fun sum s => sum + s.duration) 0)) := by
  refine ⟨?_, ?_, ?_, ?_⟩
  · exact ((applyActions_inv ops ⟨target, segs⟩ hnd hfresh).2.2 hops hsum).2
  · intro newId heq
    unfold addSegment
    rw [if_pos (by omega)]
  · intro newId hlt
    unfold addSegment
    rw [if_neg (by omega)]
    rw [max_eq_right (by omega : (1 : Int) ≤ target - totalSegmentDuration segs)]
  · intro id v s' hmem hid
    simp only [updateSegmentDuration, List.mem_map] at hmem
    obtain ⟨s, hs, heq⟩ := hmem
    by_cases h : s.id = id
    · rw [if_pos h] at heq
      rw [← heq]
      exact min_le_right _ _
    · rw [if_neg h] at heq
      rw [← heq] at hid
      exact absurd hid h

/-- Witness for `storyboard_sum_invariant`: one fresh addition followed
by an overlarge duration edit on target 10 stays within the target. -/
theorem storyboard_sum_invariant_witness :
    totalSegmentDuration (applyActions ⟨10, [⟨"1", 5, ""⟩]⟩
      [PanelAction.addSeg "2", PanelAction.editDuration "1" 9]).storyboardSegments ≤ 10 :=
  (storyboard_sum_invariant 10 [⟨"1", 5, ""⟩]
    [PanelAction.addSeg "2", PanelAction.editDuration "1" 9]
    (by decide) (by decide) (by decide) (by decide)).1

/-- C9: the storyboard always holds at least one segment: from the
seeded one-segment initial state, any run of edits, adds, removes and
target-duration changes (with fresh generated ids) keeps the list
non-empty; removal is a no-op on a single segment, and both edit forms
preserve the list length. -/
theorem storyboard_nonempty_invariant (ops : List PanelAction)
    (hfresh : freshActions initialPanelState ops = true) :
    1 ≤ (applyActions initialPanelState ops).storyboardSegments.length
    ∧ (∀ (s : StoryboardSegment) (id : String), removeSegment id [s] = [s])
    ∧ (∀ (target : Int) (id : String) (v : Int) (segs : List StoryboardSegment),
        (updateSegmentDuration target id v segs).length = segs.length)
    ∧ (∀ (id : String) (v : String) (segs : List StoryboardSegment),
        (updateSegmentDescription id v segs).length = segs.length) := by
  refine ⟨?_, ?_, ?_, ?_⟩
  · exact (applyActions_inv ops initialPanelState (by decide) hfresh).2.1 (by decide)
  · intro s id
    rfl
  · intro target id v segs
    exact updateSegmentDuration_length target id v segs
  · intro id v segs
    exact updateSegmentDescription_length id v segs

/-- Witness for `storyboard_nonempty_invariant`: removing the only
segment, shrinking the target and adding again leaves the list
non-empty. -/
theorem storyboard_nonempty_invariant_witness :
    1 ≤ (applyActions initialPanelState
      [PanelAction.removeSeg "1", PanelAction.setDuration 15 "f",
       PanelAction.addSeg "x"]).storyboardSegments.length :=
  (storyboard_nonempty_invariant
    [PanelAction.removeSeg "1", PanelAction.setDuration 15 "f", PanelAction.addSeg "x"]
    (by decide)).1

/-- The optional character fields only carry their two field names. -/
theorem characterFields_keys (request : CreateVideoRequest) :
    ∀ x ∈ characterFields request,
      x.1 = "character_url" ∨ x.1 = "character_timestamps" := by
  intro x hx
  unfold characterFields at hx
  rw [List.mem_append] at hx
  rcases hx with hx | hx
  · left
    rcases hcu : request.character_url with _ | u <;> rw [hcu] at hx
    · simp at hx
    · by_cases hu : u ≠ ""
      · have hx' : x ∈ [("character_url", FormValue.str u)] := by simpa [hu] using hx
        rw [List.mem_singleton] at hx'
        rw [hx']
      · simp [hu] at hx
  · right
    rcases hct : request.character_timestamps with _ | t <;> rw [hct] at hx
    · simp at hx
    · by_cases ht : t ≠ ""
      · have hx' : x ∈ [("character_timestamps", FormValue.str t)] := by simpa [ht] using hx
        rw [List.mem_singleton] at hx'
        rw [hx']
      · simp [ht] at hx

/-- No base field is the reference image. -/
theorem input_reference_not_mem_base (request : CreateVideoRequest) (v : FormValue) :
    ("input_reference", v) ∉ baseVideoFields request := by
  intro h
  simp [baseVideoFields] at h

/-- No character field is the reference image. -/
theorem input_reference_not_mem_char (request : CreateVideoRequest) (v : FormValue) :
    ("input_reference", v) ∉ characterFields request := by
  intro h
  rcases characterFields_keys request _ h with h1 | h1 <;> simp at h1

/-- C10: when the first image is a data URL that fails to decode,
`createVideoTask` silently omits `input_reference`, still submits the
form with every other field, and the decode failure neither changes the
call's result nor raises; a non-data-URL first image is attached
verbatim as `input_reference`. -/
theorem createVideoTask_decode_failure (atob : String → Option (List Nat))
    (request : CreateVideoRequest) (outcome : VideoFetchOutcome)
    (image : String) (rest : List String)
    (himg : request.images = image :: rest) :
    (jsStartsWith image "data:" = true → dataURLtoBlob atob image = none →
      (createVideoTask atob request outcome).1
        = baseVideoFields request ++ characterFields request
      ∧ ∀ v, ("input_reference", v) ∉ (createVideoTask atob request outcome).1)
    ∧ (jsStartsWith image "data:" = false →
        ("input_reference", FormValue.str image) ∈ (createVideoTask atob request outcome).1)
    ∧ (∀ atob2 : String → Option (List Nat),
        (createVideoTask atob request outcome).2 = (createVideoTask atob2 request outcome).2)
    ∧ (∀ res, outcome = VideoFetchOutcome.success res →
        (createVideoTask atob request outcome).2 = Except.ok res) := by
  refine ⟨?_, ?_, fun atob2 => rfl, ?_⟩
  · intro hdata hnone
    have hform : (createVideoTask atob request outcome).1
        = baseVideoFields request ++ characterFields request := by
      show createVideoFormData atob request = _
      unfold createVideoFormData
      rw [himg]
      simp [imageField, hdata, hnone]
    refine ⟨hform, ?_⟩
    intro v hv
    rw [hform, List.mem_append] at hv
    rcases hv with hv | hv
    · exact input_reference_not_mem_base request v hv
    · exact input_reference_not_mem_char request v hv
  · intro hdata
    show ("input_reference", FormValue.str image) ∈ createVideoFormData atob request
    unfold createVideoFormData
    rw [himg]
    simp [imageField, hdata]
  · intro res h
    subst h
    rfl

/-- Witness for `createVideoTask_decode_failure`: a data URL whose
base64 payload fails to decode is dropped while the job still succeeds,
and a plain URL image is attached verbatim. -/
theorem createVideoTask_decode_failure_witness :
    ((createVideoTask (fun _ => none)
        ⟨"sora-2", "hello", ["data:image/png;base64,%%%"], VideoOrientation.portrait,
          10, "small", none, none⟩
        (VideoFetchOutcome.success ⟨"task-1", "pending"⟩)).1
      = baseVideoFields
          ⟨"sora-2", "hello", ["data:image/png;base64,%%%"], VideoOrientation.portrait,
            10, "small", none, none⟩
        ++ characterFields
          ⟨"sora-2", "hello", ["data:image/png;base64,%%%"], VideoOrientation.portrait,
            10, "small", none, none⟩)
    ∧ (createVideoTask (fun _ => none)
        ⟨"sora-2", "hello", ["data:image/png;base64,%%%"], VideoOrientation.portrait,
          10, "small", none, none⟩
        (VideoFetchOutcome.success ⟨"task-1", "pending"⟩)).2
      = Except.ok ⟨"task-1", "pending"⟩
    ∧ ("input_reference", FormValue.str "https://example.com/i.png")
      ∈ (createVideoTask (fun _ => none)
          ⟨"sora-2", "hello", ["https://example.com/i.png"], VideoOrientation.portrait,
            10, "small", none, none⟩
          (VideoFetchOutcome.success ⟨"task-1", "pending"⟩)).1 := by
  refine ⟨?_, ?_, ?_⟩
  · exact ((createVideoTask_decode_failure (fun _ => none)
      ⟨"sora-2", "hello", ["data:image/png;base64,%%%"], VideoOrientation.portrait,
        10, "small", none, none⟩
      (VideoFetchOutcome.success ⟨"task-1", "pending"⟩)
      "data:image/png;base64,%%%" [] rfl).1 (by decide) rfl).1
  · exact (createVideoTask_decode_failure (fun _ => none)
      ⟨"sora-2", "hello", ["data:image/png;base64,%%%"], VideoOrientation.portrait,
        10, "small", none, none⟩
      (VideoFetchOutcome.success ⟨"task-1", "pending"⟩)
      "data:image/png;base64,%%%" [] rfl).2.2.2 ⟨"task-1", "pending"⟩ rfl
  · exact (createVideoTask_decode_failure (fun _ => none)
      ⟨"sora-2", "hello", ["https://example.com/i.png"], VideoOrientation.portrait,
        10, "small", none, none⟩
      (VideoFetchOutcome.success ⟨"task-1", "pending"⟩)
      "https://example.com/i.png" [] rfl).2.1 (by decide)

end Sora2
